import Mathlib

/-!
Verification development for the lccfq-backend core: a shallow embedding of
the QPU finite state machine (`backend/fsm.py`, `model/state.py`), the task
queue (`backend/queue.py`, `model/context.py`, `model/tasks.py`) and the
executor (`backend/executor.py`, `backend/hwman_client.py`), with theorems
checking the behavioural properties stated in the design document.

Modelling conventions:
* Python `datetime` timestamps are modelled as `Nat` clock values; the caller
  of `enqueue` passes the current clock (the code calls `datetime.now()`).
* Python floats (fidelities, tolerances) are modelled as `ℚ`; the code only
  compares them with `>=`.
* A method that mutates `self` becomes a function returning the new object;
  a method that can raise becomes a function returning the post-state paired
  with an optional raised error, or an `Except` value.
-/

namespace LCCFQBackend

/-- QPU states, from `model/state.py` (`class QPUState(str, Enum)`). -/
inductive QPUState
  | ACCESSIBLE
  | RESPONSIVE
  | TUNED
  | IDLE
  | BUSY
  | MISTUNED
  | UNRESPONSIVE
  | INACCESSIBLE
deriving DecidableEq, Repr, Fintype

/-- The Python string value of each `QPUState` member. -/
def QPUState.value : QPUState → String
  | .ACCESSIBLE => "accessible"
  | .RESPONSIVE => "responsive"
  | .TUNED => "tuned"
  | .IDLE => "idle"
  | .BUSY => "busy"
  | .MISTUNED => "mis-tuned"
  | .UNRESPONSIVE => "unresponsive"
  | .INACCESSIBLE => "inaccessible"

/-- Events, from `backend/fsm.py` (`class QPUEvent(str, Enum)`).
Note: the enum in the code has exactly these ten members; in particular it
has no `RETUNE` member, although `executor.py` refers to `QPUEvent.RETUNE`. -/
inductive QPUEvent
  | CONNECT
  | DISCONNECT
  | DEVICE_OK
  | DEVICE_FAIL
  | TUNE_SUCCESS
  | TUNE_FAIL
  | TASK_STARTED
  | TASK_FINISHED
  | FIDELITY_DEGRADED
  | RESET
deriving DecidableEq, Repr, Fintype

/-- The Python string value of each `QPUEvent` member. -/
def QPUEvent.value : QPUEvent → String
  | .CONNECT => "connect"
  | .DISCONNECT => "disconnect"
  | .DEVICE_OK => "device_ok"
  | .DEVICE_FAIL => "device_fail"
  | .TUNE_SUCCESS => "tune_success"
  | .TUNE_FAIL => "tune_fail"
  | .TASK_STARTED => "task_started"
  | .TASK_FINISHED => "task_finished"
  | .FIDELITY_DEGRADED => "fidelity_degraded"
  | .RESET => "reset"

/-- The audit value recorded on every successful transition.  The code stores
the string `f"{prev} --({event})--> {next_state}"`; it is determined by the
triple of its components, which is what we record. -/
abbrev AuditRecord := QPUState × QPUEvent × QPUState

/-- Errors raised by the backend.  `unknownQPUState` is
`error.UnknownQPUState` (raised with `event.value`); `unknownQPUTaskType`
is `error.UnknownQPUTaskType`; `attributeError` models a Python
`AttributeError` raised when code accesses an attribute that its target
object does not define. -/
inductive ExecError
  | unknownQPUState (event_value : String)
  | unknownQPUTaskType (type_value : String)
  | attributeError (attr : String)
deriving DecidableEq, Repr

/-- State held by `QPUAbstraction` in `backend/fsm.py`: the current state and
the last audit record (`last_transition`, `None` initially). -/
structure QPUAbstraction where
  state : QPUState
  last_transition : Option AuditRecord
deriving DecidableEq, Repr

/-- Source `QPUAbstraction.__init__`: starts `INACCESSIBLE` with no audit record. -/
def QPUAbstraction.init : QPUAbstraction :=
  { state := .INACCESSIBLE, last_transition := none }

/-- Source `QPUAbstraction._next_state`, the transition table of `backend/fsm.py`:
the eleven `case` arms of the `match (self.state, event)` statement, every
other pair falling through to `return None`. -/
def nextState (state : QPUState) (event : QPUEvent) : Option QPUState :=
  match state, event with
  | .INACCESSIBLE, .CONNECT => some .ACCESSIBLE
  | .ACCESSIBLE, .DEVICE_OK => some .RESPONSIVE
  | .ACCESSIBLE, .DEVICE_FAIL => some .UNRESPONSIVE
  | .RESPONSIVE, .TUNE_SUCCESS => some .TUNED
  | .RESPONSIVE, .TUNE_FAIL => some .MISTUNED
  | .TUNED, .FIDELITY_DEGRADED => some .MISTUNED
  | .MISTUNED, .TUNE_SUCCESS => some .TUNED
  | .TUNED, .RESET => some .IDLE
  | .IDLE, .TASK_STARTED => some .BUSY
  | .BUSY, .TASK_FINISHED => some .IDLE
  | .UNRESPONSIVE, .DISCONNECT => some .INACCESSIBLE
  | _, _ => none

/-- Source `QPUAbstraction.transition`: computes `_next_state`; on `None` it raises
`UnknownQPUState(event.value)` (via `_invalid_transition`) leaving `self`
untouched, otherwise it sets `state` and overwrites `last_transition`.
Returned as (post-state of `self`, optionally the raised error). -/
def QPUAbstraction.transition (m : QPUAbstraction) (event : QPUEvent) :
    QPUAbstraction × Option ExecError :=
  match nextState m.state event with
  | none => (m, some (.unknownQPUState event.value))
  | some ns =>
    ({ state := ns, last_transition := some (m.state, event, ns) }, none)

/-- The `transition` function in `Except` form, for callers that propagate the raise. -/
def QPUAbstraction.transitionE (m : QPUAbstraction) (event : QPUEvent) :
    Except ExecError QPUAbstraction :=
  match m.transition event with
  | (_, some err) => .error err
  | (m2, none) => .ok m2

/-- Source `model/context.py`: `QPUExecutionContext`. -/
structure QPUExecutionContext where
  token_id : String
  user_id : String
deriving DecidableEq, Repr

/-- Source `model/tasks.py`: `Gate` (gate params are floats, modelled as `ℚ`). -/
structure Gate where
  symbol : String
  target_qubits : List Int
  control_qubits : List Int
  params : List ℚ
deriving DecidableEq, Repr

/-- The variant-specific fields of the three task models of
`model/tasks.py`: `CircuitTask` (gates, shots), `TestTask` (symbol, params,
shots) and `ControlTask` (command, params — a list of ints). -/
inductive TaskBody
  | circuit (gates : List Gate) (shots : Nat)
  | test (symbol : String) (params : List Int) (shots : Nat)
  | control (command : String) (params : List Int)
deriving DecidableEq, Repr

/-- A task as consumed by `backend/queue.py` and `backend/executor.py`: the
`TaskBase` fields the queue reads (`task_id`) plus the variant fields.
`queue.py` reads `task.execution_context` (duck-typed; the tests attach a
`QPUExecutionContext` to task objects), so the model carries it as an
optional field, `none` when absent. -/
structure Task where
  task_id : String
  user : String
  execution_context : Option QPUExecutionContext := none
  body : TaskBody
deriving DecidableEq, Repr

/-- Source `backend/queue.py`: `QueueEntry` (dataclass). Timestamps are clock
values (`Nat`), priorities are ints. -/
structure QueueEntry where
  task_id : String
  task : Task
  timestamp : Nat
  user : String
  context_id : Option String := none
  priority : Int := 0
deriving DecidableEq, Repr

/-- The comparison key used by `dequeue`/`peek` in `backend/queue.py`:
`key=lambda entry: (-entry.priority, entry.timestamp)`. -/
def QueueEntry.sortKey (e : QueueEntry) : Int × Nat :=
  (-e.priority, e.timestamp)

/-- Lexicographic `≤` on sort keys: the order under which the Python `min` builtin
selects an entry (first occurrence of the minimum wins ties). -/
def keyLE (a b : QueueEntry) : Prop :=
  a.sortKey.1 < b.sortKey.1 ∨ (a.sortKey.1 = b.sortKey.1 ∧ a.sortKey.2 ≤ b.sortKey.2)

instance (a b : QueueEntry) : Decidable (keyLE a b) := by
  unfold keyLE; infer_instance

/-- State of `QPUTaskQueue`: the deque of entries (in insertion order) and
the context-lock table (`defaultdict(lambda: False)`), modelled as a total
map defaulting to `false`. -/
structure QPUTaskQueue where
  queue : List QueueEntry
  context_locks : String → Bool

/-- Source `QPUTaskQueue.__init__`: empty queue, all locks clear. -/
def QPUTaskQueue.init : QPUTaskQueue :=
  { queue := [], context_locks := fun _ => false }

/-- Source `QPUTaskQueue.enqueue`: builds the entry with a fresh timestamp
(`datetime.now()`, passed here as `now`), locks the context of the task when the
task carries one whose `token_id` is truthy (a non-empty string) and is not
already locked, and appends the entry.  Returns (new queue state, entry). -/
def QPUTaskQueue.enqueue (q : QPUTaskQueue) (task : Task) (user : String)
    (context_id : Option String := none) (priority : Int := 0) (now : Nat := 0) :
    QPUTaskQueue × QueueEntry :=
  let entry : QueueEntry :=
    { task_id := task.task_id, task := task, timestamp := now,
      user := user, context_id := context_id, priority := priority }
  let locks :=
    match task.execution_context with
    | some ctx =>
      if ctx.token_id ≠ "" ∧ q.context_locks ctx.token_id = false then
        fun k => if k = ctx.token_id then true else q.context_locks k
      else q.context_locks
    | none => q.context_locks
  ({ queue := q.queue ++ [entry], context_locks := locks }, entry)

/-- Selection of `min(self._queue, key=...)` together with the effect of
`self._queue.remove(best_entry)`: returns the first entry attaining the
minimal sort key and the remaining entries in their original order; `none`
on an empty list. -/
def selectMin : List QueueEntry → Option (QueueEntry × List QueueEntry)
  | [] => none
  | e :: xs =>
    match selectMin xs with
    | none => some (e, [])
    | some (b, r) => if keyLE e b then some (e, xs) else some (b, e :: r)

/-- Source `QPUTaskQueue.dequeue`: returns `None` on an empty queue, otherwise
removes and returns the minimum-key (highest priority, then earliest
timestamp) entry. -/
def QPUTaskQueue.dequeue (q : QPUTaskQueue) : Option QueueEntry × QPUTaskQueue :=
  match selectMin q.queue with
  | none => (none, q)
  | some (b, r) => (some b, { q with queue := r })

/-- Source `QPUTaskQueue.peek`: same selection as `dequeue`, without removal. -/
def QPUTaskQueue.peek (q : QPUTaskQueue) : Option QueueEntry :=
  match selectMin q.queue with
  | none => none
  | some (b, _) => some b

/-- Performs `n` successive calls to `dequeue` (stopping early if the queue empties),
returning the dequeued entries in order and the final queue state. -/
def QPUTaskQueue.dequeueN : Nat → QPUTaskQueue → List QueueEntry × QPUTaskQueue
  | 0, q => ([], q)
  | n + 1, q =>
    match q.dequeue with
    | (none, q1) => ([], q1)
    | (some b, q1) =>
      let p := QPUTaskQueue.dequeueN n q1
      (b :: p.1, p.2)

/-- The membership test of `dequeue_all_for_context`:
`entry.task.execution_context and entry.context_id == ctx_id`.  A pydantic
model instance is always truthy, so the first conjunct is `isSome`; `None ==
ctx_id` is `False` in Python, so the second is equality with `some ctx_id`. -/
def matchesContext (ctx_id : String) (e : QueueEntry) : Bool :=
  e.task.execution_context.isSome && (e.context_id == some ctx_id)

/-- Source `QPUTaskQueue.dequeue_all_for_context`: collects the matching entries in
their queue (insertion) order and rebuilds the queue from the entries that
are `not in` the matching list.  Returns (matching entries, new queue). -/
def QPUTaskQueue.dequeue_all_for_context (q : QPUTaskQueue)
    (context : QPUExecutionContext) : List QueueEntry × QPUTaskQueue :=
  let ctx_id := context.token_id
  let matching_entries := q.queue.filter (matchesContext ctx_id)
  let rest := q.queue.filter (fun e => !(matching_entries.contains e))
  (matching_entries, { q with queue := rest })

/-- Source `QPUTaskQueue.is_locked`: `self._context_locks.get(context.token_id, False)`. -/
def QPUTaskQueue.is_locked (q : QPUTaskQueue) (context : QPUExecutionContext) : Bool :=
  q.context_locks context.token_id

/-- Source `QPUTaskQueue.unlock_context`: clears the lock for the token of the context
(a no-op on the lookup result when no lock was recorded). -/
def QPUTaskQueue.unlock_context (q : QPUTaskQueue) (context : QPUExecutionContext) :
    QPUTaskQueue :=
  { q with context_locks := fun k => if k = context.token_id then false else q.context_locks k }

/-- Source `backend/hwman_client.py`: `HWManStatus`. -/
inductive HWManStatus
  | OK
  | WARNING
  | ERROR
  | RETUNE_REQUIRED
  | TIMEOUT
  | DISCONNECTED
deriving DecidableEq, Repr

/-- Source `model/observables.py`: `QubitObservable` (floats as `ℚ`). -/
structure QubitObservable where
  t1 : ℚ
  t2 : ℚ
  anharmonicity : ℚ
  frequency : ℚ
  gate_fidelity_1q : ℚ
  gate_fidelity_2q : ℚ
  rx_duration : ℚ
  ry_duration : ℚ
  sqrt_iswap_duration : ℚ
  reset_duration : ℚ
  measurement_duration : ℚ
deriving DecidableEq, Repr

/-- A per-qubit observables snapshot (`Dict[int, QubitObservable]`). -/
abbrev ObservablesMap := List (Nat × QubitObservable)

/-- The reply `executor.py` reads off a retune call: `result.status`,
`result.message`, `result.observables`. -/
structure RetuneReply where
  status : HWManStatus
  message : Option String := none
  observables : Option ObservablesMap := none
deriving DecidableEq, Repr

/-- The reply `executor.py` reads off a full-reset call: `result.status`,
`result.message`. -/
structure ResetAllReply where
  status : HWManStatus
  message : Option String := none
deriving DecidableEq, Repr

/-- The hardware manager as the executor consumes it (the design treats the
hardware driver as an opaque external collaborator; `hwman_client.py` is a
deterministic stub of it).  `evaluate_fidelity` is indexed by the number of
fidelity evaluations the current control command has already performed, so a
hardware model whose fidelity never changes is a constant function. -/
structure HWManClientModel where
  run_circuit : List Gate → Nat → List (String × Nat)
  run_test : String → List Int → Nat → List (String × ℚ)
  retuneReply : RetuneReply
  resetAllReply : ResetAllReply
  evaluate_fidelity : Nat → ℚ

/-- Modelled from the spec: `model/results.py` (imported by
`backend/executor.py`) is absent from the sources, so the `ControlAck`
message payloads are modelled from the phrase "human-readable message" in the spec:
one constructor per message template the executor produces, carrying the
arguments of the template (numeric formatting is kept as the raw values). -/
inductive AckMessage
  | qpuReset
  | retuneOk
  | hwMessage (message : Option String)
  | fullResetComplete
  | fidelityMeets (fidelity tolerance : ℚ)
  | fidelityMeetsAfterRetries (fidelity : ℚ)
  | fidelityBelow (fidelity tolerance : ℚ)
  | unknownControl (command : String)
deriving DecidableEq, Repr

/-- Modelled from the spec: `model/results.py` is absent from the sources.
`ControlAck` per the Result union of the spec: "(task id, status ∈ {ok, warning,
error}, human-readable message)"; the executor constructs the status as the
strings `"ok"`, `"warning"`, `"error"`. -/
structure ControlAck where
  task_id : String
  status : String
  message : AckMessage
deriving DecidableEq, Repr

/-- Modelled from the spec: `model/results.py` is absent from the sources.
The Result union: `CircuitResult` (task id, bitstring→count distribution),
`TestResult` (task id, named float metrics), `ControlAck`. -/
inductive TaskResult
  | circuitResult (task_id : String) (distribution : List (String × Nat))
  | testResult (task_id : String) (parameters : List (String × ℚ))
  | controlAck (ack : ControlAck)
deriving DecidableEq, Repr

/-- Source line `tolerance = float(task.params[0]) if task.params else 0.98` — an empty
parameter list (the falsy case) yields the default tolerance. -/
def parse_tolerance (params : List Int) : ℚ :=
  match params with
  | [] => 98 / 100
  | a :: _ => (a : ℚ)

/-- Source line `max_retries = int(task.params[1]) if len(task.params) > 1 else 3`. -/
def parse_max_retries (params : List Int) : Int :=
  match params with
  | _ :: b :: _ => b
  | _ => 3

/-- The `for attempt in range(max_retries)` loop of the `qtol` command:
starting at fidelity-call index `k` with `rem` attempts left, returns the
call index of the first evaluation meeting the tolerance, or `none` when
the retries are exhausted (each failed attempt also invokes hardware
retune, whose result the loop discards). -/
def qtolLoop (fid : Nat → ℚ) (tolerance : ℚ) : Nat → Nat → Option Nat
  | _, 0 => none
  | k, rem + 1 => if tolerance ≤ fid k then some k else qtolLoop fid tolerance (k + 1) rem

/-- Source `QPUExecutor._execute_control` of `backend/executor.py`, over the fields
of the `ControlTask` it reads (`task_id`, `command`, `params`).  The Python
`match task.command` on string literals is a sequential comparison chain.

In the `"retune"` success branch the source runs
`self.qpu.update_observables(result.observables)` — but `QPUAbstraction`
(`backend/fsm.py`) defines no `update_observables` method (and `QPUEvent`
has no `RETUNE` member for the following line), so that branch raises
`AttributeError` before producing an ack; it is embedded as that error. -/
def execute_control (hw : HWManClientModel) (m : QPUAbstraction)
    (task_id : String) (command : String) (params : List Int) :
    Except ExecError (QPUAbstraction × ControlAck) :=
  if command = "reset" then
    (m.transitionE .RESET).map fun m2 => (m2, ⟨task_id, "ok", .qpuReset⟩)
  else if command = "retune" then
    let result := hw.retuneReply
    if result.status = HWManStatus.OK then
      .error (.attributeError "update_observables")
    else
      (m.transitionE .TUNE_FAIL).map fun m2 => (m2, ⟨task_id, "error", .hwMessage result.message⟩)
  else if command = "resetall" then
    let result := hw.resetAllReply
    if result.status = HWManStatus.OK then
      (m.transitionE .RESET).map fun m2 => (m2, ⟨task_id, "ok", .fullResetComplete⟩)
    else
      (m.transitionE .TUNE_FAIL).map fun m2 => (m2, ⟨task_id, "error", .hwMessage result.message⟩)
  else if command = "qtol" then
    let tolerance := parse_tolerance params
    let max_retries := parse_max_retries params
    match qtolLoop hw.evaluate_fidelity tolerance 0 max_retries.toNat with
    | some k =>
      (m.transitionE .TUNE_SUCCESS).map fun m2 =>
        (m2, ⟨task_id, "ok", .fidelityMeets (hw.evaluate_fidelity k) tolerance⟩)
    | none =>
      let fidelity := hw.evaluate_fidelity max_retries.toNat
      if tolerance ≤ fidelity then
        (m.transitionE .TUNE_SUCCESS).map fun m2 =>
          (m2, ⟨task_id, "warning", .fidelityMeetsAfterRetries fidelity⟩)
      else
        (m.transitionE .TUNE_FAIL).map fun m2 =>
          (m2, ⟨task_id, "error", .fidelityBelow fidelity tolerance⟩)
  else
    .ok (m, ⟨task_id, "error", .unknownControl command⟩)

/-- The own execution of one task: the per-kind branches `_execute_circuit`,
`_execute_test`, `_execute_control` as selected by the match in `_dispatch` on
`task.type` (the fall-through `UnknownQPUTaskType` arm is unreachable over
the closed union of the three task models).  Does not include the deferred
drain that `_dispatch` performs afterwards. -/
def execute_task (hw : HWManClientModel) (m : QPUAbstraction) (t : Task) :
    Except ExecError (QPUAbstraction × TaskResult) :=
  match t.body with
  | .circuit gates shots => do
    let m1 ← m.transitionE .TASK_STARTED
    let dist := hw.run_circuit gates shots
    let m2 ← m1.transitionE .TASK_FINISHED
    .ok (m2, .circuitResult t.task_id dist)
  | .test symbol params shots => do
    let m1 ← m.transitionE .TASK_STARTED
    let metrics := hw.run_test symbol params shots
    let m2 ← m1.transitionE .TASK_FINISHED
    .ok (m2, .testResult t.task_id metrics)
  | .control command params =>
    (execute_control hw m t.task_id command params).map fun p => (p.1, .controlAck p.2)

/-- The mutable state of `QPUExecutor` (`self.qpu`, `self.queue`); the
hardware client is passed alongside as `hw`. -/
structure QPUExecutor where
  qpu : QPUAbstraction
  queue : QPUTaskQueue

/-- Source `QPUExecutor._handle_deferred_tasks`, together with the `_dispatch` it
calls: `while self.qpu.state == IDLE`, dequeue the next entry (stop when the
queue is empty) and `_dispatch` its task — which executes the task and then
recursively handles deferred tasks before the `while` re-checks.  Results of
drained tasks are only printed by the source; the embedding returns them as
a trace list, in execution order.  The loop terminates because every
iteration removes a queue entry and no dispatch enqueues; `fuel` bounds the
iterations and any `fuel ≥` queue length is sufficient. -/
def drainDeferred (hw : HWManClientModel) :
    Nat → QPUExecutor → Except ExecError (QPUExecutor × List TaskResult)
  | 0, s => .ok (s, [])
  | fuel + 1, s =>
    if s.qpu.state = .IDLE then
      match s.queue.dequeue with
      | (none, _) => .ok (s, [])
      | (some entry, q1) => do
        let p1 ← execute_task hw s.qpu entry.task
        let p2 ← drainDeferred hw fuel ⟨p1.1, q1⟩
        let p3 ← drainDeferred hw fuel p2.1
        .ok (p3.1, p1.2 :: (p2.2 ++ p3.2))
    else .ok (s, [])

/-- Source `QPUExecutor.execute`: the discriminant of the task is one of the three known
kinds (always true over the closed `TaskBody` union); enqueue the task; if
the QPU state is not `IDLE` return `None` (deferred); otherwise `_dispatch`
the just-submitted task — execute it and then handle deferred tasks.
Returns the post-state of the executor and, when dispatched, the result of the task
with the drained-task trace. -/
def QPUExecutor.execute (hw : HWManClientModel) (fuel : Nat) (s : QPUExecutor)
    (task : Task) (user : String) (context_id : Option String) (priority : Int)
    (now : Nat) :
    Except ExecError (QPUExecutor × Option (TaskResult × List TaskResult)) :=
  let q1 := (s.queue.enqueue task user context_id priority now).1
  if s.qpu.state ≠ .IDLE then
    .ok (⟨s.qpu, q1⟩, none)
  else do
    let p1 ← execute_task hw s.qpu task
    let p2 ← drainDeferred hw fuel ⟨p1.1, q1⟩
    .ok (p2.1, some (p1.2, p2.2))

/-! ## Concrete fixtures used by witnesses and counterexamples -/

/-- A hardware model whose fidelity evaluation always returns 0.981, with
the other replies of the stub client (`hwman_client.py`). -/
def hwConst981 : HWManClientModel :=
  { run_circuit := fun _ shots => [("000", shots / 2), ("111", shots - shots / 2)]
    run_test := fun _ _ _ => [("fidelity", 982 / 1000), ("xeb_fit", 975 / 1000)]
    retuneReply := { status := .OK }
    resetAllReply := { status := .OK }
    evaluate_fidelity := fun _ => 981 / 1000 }

/-- A hardware model whose retune call reports failure with a message. -/
def hwRetuneFail : HWManClientModel :=
  { hwConst981 with retuneReply := { status := .ERROR, message := some "retune failed" } }

/-- A machine sitting in `IDLE`. -/
def mIdle : QPUAbstraction := { state := .IDLE, last_transition := none }

/-- A machine sitting in `MISTUNED`. -/
def mMistuned : QPUAbstraction := { state := .MISTUNED, last_transition := none }

/-- A machine sitting in `RESPONSIVE`. -/
def mResponsive : QPUAbstraction := { state := .RESPONSIVE, last_transition := none }

/-! ## Helper lemmas -/

/-- The Python string values of the ten `QPUEvent` members are pairwise
distinct, so an error carrying `event.value` identifies the event. -/
theorem QPUEvent.value_inj : ∀ e1 e2 : QPUEvent, e1.value = e2.value → e1 = e2 := by
  decide

/-! ## C1 — the transition table of the spec versus that of the code -/

/-- C1 (counterexample): the transition table of the spec lists
`Idle --Reset--> Idle`, but `_next_state` has no `(IDLE, RESET)` arm, so
`transition(RESET)` from `IDLE` raises instead of succeeding; moreover no
member of the event enum of the code has the value `retune`, so the spec rows
`Mistuned --Retune--> Responsive` and `Tuned --Retune--> Responsive` have no
triggering event at all. -/
theorem fsm_idle_reset_counterexample :
    nextState .IDLE .RESET = none ∧
    (QPUAbstraction.mk .IDLE none).transition .RESET =
      (⟨.IDLE, none⟩, some (.unknownQPUState "reset")) ∧
    (∀ e : QPUEvent, e.value ≠ "retune") :=
  ⟨rfl, rfl, by decide⟩

/-- C1 (amended): for every `(state, event)` pair in the transition
table of the code — the table of the spec minus the two `Retune` rows and minus
`Idle --Reset--> Idle` — `transition` succeeds, sets the machine to exactly
the listed next state and overwrites the audit record with
`prev --(event)--> next`; the event type of the code has no `Retune` member and
`(Idle, Reset)` is an invalid pair. -/
theorem fsm_transition_table_amended :
    (∀ a : Option AuditRecord,
      (QPUAbstraction.mk .INACCESSIBLE a).transition .CONNECT =
        (⟨.ACCESSIBLE, some (.INACCESSIBLE, .CONNECT, .ACCESSIBLE)⟩, none) ∧
      (QPUAbstraction.mk .ACCESSIBLE a).transition .DEVICE_OK =
        (⟨.RESPONSIVE, some (.ACCESSIBLE, .DEVICE_OK, .RESPONSIVE)⟩, none) ∧
      (QPUAbstraction.mk .ACCESSIBLE a).transition .DEVICE_FAIL =
        (⟨.UNRESPONSIVE, some (.ACCESSIBLE, .DEVICE_FAIL, .UNRESPONSIVE)⟩, none) ∧
      (QPUAbstraction.mk .UNRESPONSIVE a).transition .DISCONNECT =
        (⟨.INACCESSIBLE, some (.UNRESPONSIVE, .DISCONNECT, .INACCESSIBLE)⟩, none) ∧
      (QPUAbstraction.mk .RESPONSIVE a).transition .TUNE_SUCCESS =
        (⟨.TUNED, some (.RESPONSIVE, .TUNE_SUCCESS, .TUNED)⟩, none) ∧
      (QPUAbstraction.mk .RESPONSIVE a).transition .TUNE_FAIL =
        (⟨.MISTUNED, some (.RESPONSIVE, .TUNE_FAIL, .MISTUNED)⟩, none) ∧
      (QPUAbstraction.mk .MISTUNED a).transition .TUNE_SUCCESS =
        (⟨.TUNED, some (.MISTUNED, .TUNE_SUCCESS, .TUNED)⟩, none) ∧
      (QPUAbstraction.mk .TUNED a).transition .FIDELITY_DEGRADED =
        (⟨.MISTUNED, some (.TUNED, .FIDELITY_DEGRADED, .MISTUNED)⟩, none) ∧
      (QPUAbstraction.mk .TUNED a).transition .RESET =
        (⟨.IDLE, some (.TUNED, .RESET, .IDLE)⟩, none) ∧
      (QPUAbstraction.mk .IDLE a).transition .TASK_STARTED =
        (⟨.BUSY, some (.IDLE, .TASK_STARTED, .BUSY)⟩, none) ∧
      (QPUAbstraction.mk .BUSY a).transition .TASK_FINISHED =
        (⟨.IDLE, some (.BUSY, .TASK_FINISHED, .IDLE)⟩, none)) ∧
    (∀ e : QPUEvent, e.value ≠ "retune") ∧
    nextState .IDLE .RESET = none := by
  refine ⟨fun a => ⟨rfl, rfl, rfl, rfl, rfl, rfl, rfl, rfl, rfl, rfl, rfl⟩, by decide, rfl⟩

/-! ## C2 — invalid transitions fail without mutation -/

/-- C2: for every `(state, event)` pair absent from the transition table,
`transition` raises `UnknownQPUState` carrying the value of the offending event
(which determines the event, by `QPUEvent.value_inj`), and both the current
state and `last_transition` are returned unchanged. -/
theorem fsm_invalid_transition_no_mutation (m : QPUAbstraction) (e : QPUEvent)
    (h : nextState m.state e = none) :
    m.transition e = (m, some (.unknownQPUState e.value)) ∧
    (∀ e2 : QPUEvent, e2.value = e.value → e2 = e) := by
  constructor
  · unfold QPUAbstraction.transition
    rw [h]
  · exact fun e2 h2 => QPUEvent.value_inj e2 e h2

/-- Witness for C2 at the initial state and the `Reset` event. -/
theorem fsm_invalid_transition_no_mutation_witness :
    QPUAbstraction.init.transition .RESET =
      (QPUAbstraction.init, some (.unknownQPUState "reset")) :=
  (fsm_invalid_transition_no_mutation QPUAbstraction.init .RESET rfl).1

/-! ## C10 — in `BUSY`, only `TASK_FINISHED` succeeds -/

/-- C10: from `BUSY`, `transition` fails for every event other than
`TASK_FINISHED` and leaves the machine (state and audit record) unchanged,
while `TASK_FINISHED` moves the machine to `IDLE`. -/
theorem fsm_busy_only_task_finished (a : Option AuditRecord) (e : QPUEvent)
    (h : e ≠ .TASK_FINISHED) :
    (QPUAbstraction.mk .BUSY a).transition e =
      (⟨.BUSY, a⟩, some (.unknownQPUState e.value)) ∧
    (QPUAbstraction.mk .BUSY a).transition .TASK_FINISHED =
      (⟨.IDLE, some (.BUSY, .TASK_FINISHED, .IDLE)⟩, none) := by
  constructor
  · cases e <;> first | rfl | exact absurd rfl h
  · rfl

/-- Witness for C10 at the `Reset` event. -/
theorem fsm_busy_only_task_finished_witness :
    (QPUAbstraction.mk .BUSY none).transition .RESET =
      (⟨.BUSY, none⟩, some (.unknownQPUState "reset")) ∧
    (QPUAbstraction.mk .BUSY none).transition .TASK_FINISHED =
      (⟨.IDLE, some (.BUSY, .TASK_FINISHED, .IDLE)⟩, none) :=
  fsm_busy_only_task_finished none .RESET (by decide)

/-! ## Queue selection lemmas -/

theorem keyLE_refl (a : QueueEntry) : keyLE a a := Or.inr ⟨rfl, le_refl _⟩

theorem keyLE_trans {a b c : QueueEntry} (h1 : keyLE a b) (h2 : keyLE b c) :
    keyLE a c := by
  unfold keyLE at h1 h2 ⊢
  omega

theorem keyLE_total (a b : QueueEntry) : keyLE a b ∨ keyLE b a := by
  unfold keyLE
  omega

theorem selectMin_eq_none {l : List QueueEntry} : selectMin l = none ↔ l = [] := by
  cases l with
  | nil => simp [selectMin]
  | cons e xs =>
    simp only [selectMin]
    cases h : selectMin xs with
    | none => simp
    | some p =>
      obtain ⟨b, r⟩ := p
      by_cases hk : keyLE e b <;> simp [hk]

/-- What `min` + `remove` guarantees: the selected entry belongs to the
queue, the remainder is the queue with that occurrence removed (up to
permutation), and the key of the selected entry is minimal. -/
theorem selectMin_spec (l : List QueueEntry) :
    ∀ b r, selectMin l = some (b, r) →
      b ∈ l ∧ l.Perm (b :: r) ∧ ∀ e ∈ l, keyLE b e := by
  induction l with
  | nil => intro b r h; simp [selectMin] at h
  | cons e xs ih =>
    intro b r h
    cases hxs : selectMin xs with
    | none =>
      have heq : selectMin (e :: xs) = some (e, []) := by rw [selectMin, hxs]
      rw [heq] at h
      simp only [Option.some.injEq, Prod.mk.injEq] at h
      obtain ⟨h1, h2⟩ := h
      subst h1
      subst h2
      have hnil : xs = [] := selectMin_eq_none.mp hxs
      subst hnil
      refine ⟨List.mem_cons_self _ _, List.Perm.refl _, ?_⟩
      intro x hx
      rw [List.mem_singleton] at hx
      subst hx
      exact keyLE_refl x
    | some p =>
      obtain ⟨b0, r0⟩ := p
      have heq : selectMin (e :: xs) =
          if keyLE e b0 then some (e, xs) else some (b0, e :: r0) := by
        rw [selectMin, hxs]
      rw [heq] at h
      obtain ⟨hmem0, hperm0, hmin0⟩ := ih b0 r0 hxs
      by_cases hk : keyLE e b0
      · rw [if_pos hk] at h
        simp only [Option.some.injEq, Prod.mk.injEq] at h
        obtain ⟨h1, h2⟩ := h
        subst h1
        subst h2
        refine ⟨List.mem_cons_self _ _, List.Perm.refl _, ?_⟩
        intro x hx
        rcases List.mem_cons.mp hx with rfl | hx2
        · exact keyLE_refl x
        · exact keyLE_trans hk (hmin0 x hx2)
      · rw [if_neg hk] at h
        simp only [Option.some.injEq, Prod.mk.injEq] at h
        obtain ⟨h1, h2⟩ := h
        subst h1
        subst h2
        refine ⟨List.mem_cons_of_mem e hmem0, ?_, ?_⟩
        · exact List.Perm.trans (hperm0.cons e) (List.Perm.swap b0 e r0)
        · intro x hx
          rcases List.mem_cons.mp hx with rfl | hx2
          · rcases keyLE_total x b0 with hxb | hbx
            · exact absurd hxb hk
            · exact hbx
          · exact hmin0 x hx2

theorem dequeue_eq_none {q : QPUTaskQueue} (h : selectMin q.queue = none) :
    q.dequeue = (none, q) := by
  unfold QPUTaskQueue.dequeue
  rw [h]

theorem dequeue_eq_some {q : QPUTaskQueue} {b : QueueEntry} {r : List QueueEntry}
    (h : selectMin q.queue = some (b, r)) :
    q.dequeue = (some b, { q with queue := r }) := by
  unfold QPUTaskQueue.dequeue
  rw [h]

/-- Every entry returned by repeated dequeuing was in the queue. -/
theorem dequeueN_mem (n : Nat) (q : QPUTaskQueue) :
    ∀ x ∈ (QPUTaskQueue.dequeueN n q).1, x ∈ q.queue := by
  induction n generalizing q with
  | zero => intro x hx; simp [QPUTaskQueue.dequeueN] at hx
  | succ n ih =>
    intro x hx
    cases hsel : selectMin q.queue with
    | none =>
      rw [QPUTaskQueue.dequeueN, dequeue_eq_none hsel] at hx
      simp at hx
    | some p =>
      obtain ⟨b, r⟩ := p
      obtain ⟨hmem, hperm, hmin⟩ := selectMin_spec q.queue b r hsel
      rw [QPUTaskQueue.dequeueN, dequeue_eq_some hsel] at hx
      simp only [List.mem_cons] at hx
      rcases hx with rfl | hx2
      · exact hmem
      · have hr : x ∈ r := ih { q with queue := r } x hx2
        exact hperm.mem_iff.mpr (List.mem_cons_of_mem b hr)

/-- Repeated dequeuing emits entries in non-increasing key order. -/
theorem dequeueN_sorted (n : Nat) (q : QPUTaskQueue) :
    List.Sorted keyLE (QPUTaskQueue.dequeueN n q).1 := by
  induction n generalizing q with
  | zero => simp [QPUTaskQueue.dequeueN]
  | succ n ih =>
    cases hsel : selectMin q.queue with
    | none =>
      rw [QPUTaskQueue.dequeueN, dequeue_eq_none hsel]
      simp
    | some p =>
      obtain ⟨b, r⟩ := p
      obtain ⟨hmem, hperm, hmin⟩ := selectMin_spec q.queue b r hsel
      rw [QPUTaskQueue.dequeueN, dequeue_eq_some hsel]
      simp only [List.sorted_cons]
      refine ⟨?_, ih _⟩
      intro x hx
      have hr : x ∈ r := dequeueN_mem n { q with queue := r } x hx
      exact hmin x (hperm.mem_iff.mpr (List.mem_cons_of_mem b hr))

/-- Dequeuing as many times as the queue holds entries drains it completely
and emits a permutation of its contents. -/
theorem dequeueN_perm (n : Nat) (q : QPUTaskQueue) (h : q.queue.length = n) :
    (QPUTaskQueue.dequeueN n q).1.Perm q.queue ∧
    (QPUTaskQueue.dequeueN n q).2.queue = [] := by
  induction n generalizing q with
  | zero =>
    have hq : q.queue = [] := List.length_eq_zero.mp h
    simp [QPUTaskQueue.dequeueN, hq]
  | succ n ih =>
    cases hsel : selectMin q.queue with
    | none =>
      exfalso
      rw [selectMin_eq_none.mp hsel] at h
      simp at h
    | some p =>
      obtain ⟨b, r⟩ := p
      obtain ⟨hmem, hperm, hmin⟩ := selectMin_spec q.queue b r hsel
      have hlen : r.length = n := by
        have := hperm.length_eq
        simp only [List.length_cons, h] at this
        omega
      obtain ⟨ihp, ihd⟩ := ih { q with queue := r } hlen
      rw [QPUTaskQueue.dequeueN, dequeue_eq_some hsel]
      exact ⟨(ihp.cons b).trans hperm.symm, ihd⟩

/-- The order the design describes for `dequeue`: priority descending, then
timestamp ascending. -/
def dequeueOrder (a b : QueueEntry) : Prop :=
  b.priority < a.priority ∨ (a.priority = b.priority ∧ a.timestamp ≤ b.timestamp)

theorem keyLE_iff_dequeueOrder (a b : QueueEntry) :
    keyLE a b ↔ dequeueOrder a b := by
  unfold keyLE dequeueOrder QueueEntry.sortKey
  omega

/-! ## C3 — dequeue selection and drain order -/

/-- C3: on an empty queue `dequeue` returns the empty marker (and, being a
total function, never raises); on a non-empty queue it removes and returns
an entry of maximal priority, earliest-timestamped among that priority; and
draining a queue by as many dequeues as it has entries emits exactly its
entries (a permutation), sorted by priority descending then timestamp
ascending, leaving the queue empty. -/
theorem queue_dequeue_priority_order (q : QPUTaskQueue) :
    (q.queue = [] → q.dequeue = (none, q)) ∧
    (∀ b q1, q.dequeue = (some b, q1) →
      b ∈ q.queue ∧
      (∀ e ∈ q.queue,
        e.priority ≤ b.priority ∧
        (e.priority = b.priority → b.timestamp ≤ e.timestamp)) ∧
      q.queue.Perm (b :: q1.queue)) ∧
    List.Sorted dequeueOrder (QPUTaskQueue.dequeueN q.queue.length q).1 ∧
    (QPUTaskQueue.dequeueN q.queue.length q).1.Perm q.queue ∧
    (QPUTaskQueue.dequeueN q.queue.length q).2.queue = [] := by
  refine ⟨?_, ?_, ?_, (dequeueN_perm _ q rfl).1, (dequeueN_perm _ q rfl).2⟩
  · intro h
    exact dequeue_eq_none (selectMin_eq_none.mpr h)
  · intro b q1 h
    cases hsel : selectMin q.queue with
    | none =>
      rw [dequeue_eq_none hsel] at h
      simp at h
    | some p =>
      obtain ⟨b0, r0⟩ := p
      rw [dequeue_eq_some hsel] at h
      simp only [Prod.mk.injEq, Option.some.injEq] at h
      obtain ⟨rfl, rfl⟩ := h
      obtain ⟨hmem, hperm, hmin⟩ := selectMin_spec q.queue b0 r0 hsel
      refine ⟨hmem, ?_, hperm⟩
      intro e he
      have hk := hmin e he
      unfold keyLE QueueEntry.sortKey at hk
      constructor
      · omega
      · intro hp; omega
  · exact (dequeueN_sorted _ q).imp fun h => (keyLE_iff_dequeueOrder _ _).mp h

/-- Fixtures for the C3 witness: a low-priority early entry and a
high-priority later entry. -/
def taskC3a : Task := { task_id := "a", user := "u", body := .control "reset" [] }

def taskC3b : Task := { task_id := "b", user := "u", body := .control "reset" [] }

def entryC3a : QueueEntry :=
  { task_id := "a", task := taskC3a, timestamp := 0, user := "u", priority := 1 }

def entryC3b : QueueEntry :=
  { task_id := "b", task := taskC3b, timestamp := 1, user := "u", priority := 5 }

def qC3 : QPUTaskQueue :=
  { queue := [entryC3a, entryC3b], context_locks := fun _ => false }

/-- Witness for C3: the empty queue yields the empty marker; on the
two-entry queue, the higher-priority entry is selected. -/
theorem queue_dequeue_priority_order_witness :
    (QPUTaskQueue.init.dequeue = (none, QPUTaskQueue.init)) ∧
    (entryC3b ∈ qC3.queue ∧
      (∀ e ∈ qC3.queue,
        e.priority ≤ entryC3b.priority ∧
        (e.priority = entryC3b.priority → entryC3b.timestamp ≤ e.timestamp)) ∧
      qC3.queue.Perm (entryC3b :: [entryC3a])) :=
  ⟨(queue_dequeue_priority_order QPUTaskQueue.init).1 rfl,
   (queue_dequeue_priority_order qC3).2.1 entryC3b
     ⟨[entryC3a], qC3.context_locks⟩ rfl⟩

/-! ## C4 — context batch removal -/

/-- Fixture for the C4 counterexample: an entry whose `context_id` is `"C"`
but whose task carries no execution context. -/
def taskC4 : Task :=
  { task_id := "t-c4", user := "u", execution_context := none,
    body := .control "reset" [] }

def entryC4 : QueueEntry :=
  { task_id := "t-c4", task := taskC4, timestamp := 0, user := "u",
    context_id := some "C", priority := 0 }

def qC4 : QPUTaskQueue := { queue := [entryC4], context_locks := fun _ => false }

def ctxC4 : QPUExecutionContext := { token_id := "C", user_id := "u" }

/-- C4 (counterexample): the claim says `dequeueAllForContext(C)` returns
exactly the entries whose context id equals `C` and removes them; but the
membership test in the code also requires `entry.task.execution_context` to be
set, so an entry with context id `"C"` on a context-free task is neither
returned nor removed. -/
theorem queue_context_dequeue_counterexample :
    entryC4.context_id = some ctxC4.token_id ∧
    (qC4.dequeue_all_for_context ctxC4).1 = [] ∧
    (qC4.dequeue_all_for_context ctxC4).2.queue = [entryC4] :=
  ⟨rfl, rfl, rfl⟩

/-- C4 (amended): `dequeue_all_for_context C` returns exactly the entries
whose task carries an execution context **and** whose context id equals
`C.token_id`, in their original insertion order; the remaining queue is
exactly the non-matching entries in their original order (so they stay
retrievable by later dequeues), and the lock table is untouched. -/
theorem queue_dequeue_all_for_context_amended (q : QPUTaskQueue)
    (ctx : QPUExecutionContext) :
    (q.dequeue_all_for_context ctx).1 =
      q.queue.filter (matchesContext ctx.token_id) ∧
    (q.dequeue_all_for_context ctx).2.queue =
      q.queue.filter (fun e => !(matchesContext ctx.token_id e)) ∧
    (q.dequeue_all_for_context ctx).2.context_locks = q.context_locks := by
  refine ⟨rfl, ?_, rfl⟩
  show q.queue.filter
      (fun e => !((q.queue.filter (matchesContext ctx.token_id)).contains e)) =
    q.queue.filter (fun e => !(matchesContext ctx.token_id e))
  apply List.filter_congr
  intro x hx
  by_cases hm : matchesContext ctx.token_id x = true
  · have hx2 : x ∈ q.queue.filter (matchesContext ctx.token_id) :=
      List.mem_filter.mpr ⟨hx, hm⟩
    have hc : (q.queue.filter (matchesContext ctx.token_id)).contains x = true :=
      List.elem_iff.mpr hx2
    rw [hm, hc]
  · have hm2 : matchesContext ctx.token_id x = false := by
      simpa using hm
    have hc : (q.queue.filter (matchesContext ctx.token_id)).contains x = false := by
      cases hcc : (q.queue.filter (matchesContext ctx.token_id)).contains x with
      | false => rfl
      | true =>
        have hmem : x ∈ q.queue.filter (matchesContext ctx.token_id) :=
          List.elem_iff.mp hcc
        exact absurd (List.mem_filter.mp hmem).2 (by simp [hm2])
    rw [hm2, hc]

/-! ## C8 — enqueue and context locking -/

/-- Fixture for the C8 counterexample: a context with an empty token id,
which is falsy in Python, so `enqueue` skips the lock step. -/
def ctxEmptyTok : QPUExecutionContext := { token_id := "", user_id := "u" }

def taskEmptyTok : Task :=
  { task_id := "t-c8", user := "u", execution_context := some ctxEmptyTok,
    body := .control "reset" [] }

/-- C8 (counterexample): the claim says that whenever the task carries an
execution context, enqueue leaves that context marked locked; but for a
context whose token id is the empty string (falsy), the lock step is
skipped, so the context is not locked after enqueue. -/
theorem queue_enqueue_lock_counterexample :
    taskEmptyTok.execution_context = some ctxEmptyTok ∧
    (QPUTaskQueue.init.enqueue taskEmptyTok "u" none 0 0).1.is_locked ctxEmptyTok
      = false :=
  ⟨rfl, rfl⟩

/-- The lock table produced by `enqueue` for a task carrying a context. -/
theorem enqueue_locks_some (q : QPUTaskQueue) {t : Task} {c : QPUExecutionContext}
    (hc : t.execution_context = some c) (user : String) (cid : Option String)
    (prio : Int) (now : Nat) :
    (q.enqueue t user cid prio now).1.context_locks =
      if c.token_id ≠ "" ∧ q.context_locks c.token_id = false then
        fun k => if k = c.token_id then true else q.context_locks k
      else q.context_locks := by
  unfold QPUTaskQueue.enqueue
  rw [hc]

/-- The lock table is untouched by `enqueue` for a context-free task. -/
theorem enqueue_locks_none (q : QPUTaskQueue) {t : Task}
    (hc : t.execution_context = none) (user : String) (cid : Option String)
    (prio : Int) (now : Nat) :
    (q.enqueue t user cid prio now).1.context_locks = q.context_locks := by
  unfold QPUTaskQueue.enqueue
  rw [hc]

/-- C8 (amended): `enqueue` always succeeds, returning an entry stamped
with the supplied clock value; when the task carries an execution context
with a non-empty token id, that context ends up locked; locking an
already-locked context is a no-op — enqueueing a second task of the same
(already locked) context, and enqueueing a context-free task, leave the
lock table unchanged. -/
theorem queue_enqueue_amended (q : QPUTaskQueue) (t : Task) (user : String)
    (cid : Option String) (prio : Int) (now : Nat) :
    ((q.enqueue t user cid prio now).2 =
      { task_id := t.task_id, task := t, timestamp := now, user := user,
        context_id := cid, priority := prio }) ∧
    ((q.enqueue t user cid prio now).1.queue =
      q.queue ++ [(q.enqueue t user cid prio now).2]) ∧
    (∀ c, t.execution_context = some c → c.token_id ≠ "" →
      (q.enqueue t user cid prio now).1.is_locked c = true) ∧
    (∀ c, t.execution_context = some c → q.is_locked c = true →
      (q.enqueue t user cid prio now).1.context_locks = q.context_locks) ∧
    (t.execution_context = none →
      (q.enqueue t user cid prio now).1.context_locks = q.context_locks) := by
  refine ⟨rfl, rfl, ?_, ?_, ?_⟩
  · intro c hc hne
    unfold QPUTaskQueue.is_locked
    rw [enqueue_locks_some q hc user cid prio now]
    by_cases hl : q.context_locks c.token_id = false
    · rw [if_pos (And.intro hne hl)]
      simp
    · rw [if_neg (fun hand => hl hand.2)]
      cases hb : q.context_locks c.token_id with
      | false => exact absurd hb hl
      | true => rfl
  · intro c hc hl
    unfold QPUTaskQueue.is_locked at hl
    rw [enqueue_locks_some q hc user cid prio now]
    have hnand : ¬(c.token_id ≠ "" ∧ q.context_locks c.token_id = false) := by
      intro hand
      rw [hl] at hand
      exact Bool.noConfusion hand.2
    rw [if_neg hnand]
  · intro hc
    exact enqueue_locks_none q hc user cid prio now

/-- Fixture for the C8 witness: a task carrying context `CTX1`. -/
def ctxC8 : QPUExecutionContext := { token_id := "CTX1", user_id := "u" }

def taskC8 : Task :=
  { task_id := "t-c8b", user := "u", execution_context := some ctxC8,
    body := .control "reset" [] }

/-- Witness for C8: enqueueing a task of context `CTX1` locks `CTX1`;
enqueueing a second task of the same context leaves the lock table of the
resulting queue unchanged. -/
theorem queue_enqueue_amended_witness :
    ((QPUTaskQueue.init.enqueue taskC8 "u" none 0 0).1.is_locked ctxC8 = true) ∧
    (((QPUTaskQueue.init.enqueue taskC8 "u" none 0 0).1.enqueue taskC8 "u" none 0 1).1.context_locks
      = (QPUTaskQueue.init.enqueue taskC8 "u" none 0 0).1.context_locks) :=
  ⟨(queue_enqueue_amended QPUTaskQueue.init taskC8 "u" none 0 0).2.2.1
      ctxC8 rfl (by decide),
   (queue_enqueue_amended (QPUTaskQueue.init.enqueue taskC8 "u" none 0 0).1
      taskC8 "u" none 0 1).2.2.2.1 ctxC8 rfl rfl⟩

/-! ## Executor lemmas -/

theorem qtolLoop_first_hit (fid : Nat → ℚ) (tol : ℚ) (k n : Nat)
    (hn : 0 < n) (h : tol ≤ fid k) : qtolLoop fid tol k n = some k := by
  cases n with
  | zero => omega
  | succ m =>
    unfold qtolLoop
    rw [if_pos h]

/-- The retry loop succeeds exactly at the first call index whose fidelity
meets the tolerance, at any position `j` within the allowed attempts. -/
theorem qtolLoop_hit (fid : Nat → ℚ) (tol : ℚ) :
    ∀ n k j, j < n → (∀ i, i < j → fid (k + i) < tol) → tol ≤ fid (k + j) →
      qtolLoop fid tol k n = some (k + j) := by
  intro n
  induction n with
  | zero => intro k j hj _ _; omega
  | succ m ih =>
    intro k j hj hlt hge
    cases j with
    | zero =>
      have h0 : tol ≤ fid k := by simpa using hge
      unfold qtolLoop
      rw [if_pos h0]
      simp
    | succ j0 =>
      have h0 : fid k < tol := by
        have := hlt 0 (by omega)
        simpa using this
      unfold qtolLoop
      rw [if_neg (not_le.mpr h0)]
      have := ih (k + 1) j0 (by omega)
        (fun i hi => by
          have := hlt (i + 1) (by omega)
          rwa [show k + (i + 1) = k + 1 + i by omega] at this)
        (by rwa [show k + (j0 + 1) = k + 1 + j0 by omega] at hge)
      rw [this, show k + 1 + j0 = k + (j0 + 1) by omega]

/-- Specialisation of `qtolLoop_hit` to a loop starting at call index 0. -/
theorem qtolLoop_hit_from_start (fid : Nat → ℚ) (tol : ℚ) (n k : Nat)
    (hk : k < n) (hlt : ∀ i, i < k → fid i < tol) (hge : tol ≤ fid k) :
    qtolLoop fid tol 0 n = some k := by
  have := qtolLoop_hit fid tol n 0 k hk
    (fun i hi => by simpa using hlt i hi) (by simpa using hge)
  simpa using this

theorem qtolLoop_exhausted (fid : Nat → ℚ) (tol : ℚ) :
    ∀ n k, (∀ i, i < n → fid (k + i) < tol) → qtolLoop fid tol k n = none := by
  intro n
  induction n with
  | zero => intro k _; rfl
  | succ m ih =>
    intro k h
    have h0 : fid k < tol := by
      have := h 0 (by omega)
      simpa using this
    unfold qtolLoop
    rw [if_neg (not_le.mpr h0)]
    apply ih
    intro i hi
    have := h (i + 1) (by omega)
    rwa [show k + (i + 1) = k + 1 + i by omega] at this

/-- Unfolding of `_execute_control` at the `qtol` command. -/
theorem execute_control_qtol (hw : HWManClientModel) (m : QPUAbstraction)
    (task_id : String) (params : List Int) :
    execute_control hw m task_id "qtol" params =
      match qtolLoop hw.evaluate_fidelity (parse_tolerance params) 0
          (parse_max_retries params).toNat with
      | some k =>
        (m.transitionE .TUNE_SUCCESS).map fun m2 =>
          (m2, ⟨task_id, "ok",
                .fidelityMeets (hw.evaluate_fidelity k) (parse_tolerance params)⟩)
      | none =>
        if parse_tolerance params ≤ hw.evaluate_fidelity (parse_max_retries params).toNat then
          (m.transitionE .TUNE_SUCCESS).map fun m2 =>
            (m2, ⟨task_id, "warning",
                  .fidelityMeetsAfterRetries
                    (hw.evaluate_fidelity (parse_max_retries params).toNat)⟩)
        else
          (m.transitionE .TUNE_FAIL).map fun m2 =>
            (m2, ⟨task_id, "error",
                  .fidelityBelow (hw.evaluate_fidelity (parse_max_retries params).toNat)
                    (parse_tolerance params)⟩) := by
  rfl

/-! ## C5 — the qtol retry policy -/

/-- C5: the `qtol` handler parses tolerance 0.98 and max-retries 3 as the
defaults for an empty parameter list, and otherwise reads them from the
first two numeric parameters; whenever iteration `k` of the retry loop
(any `k < max_retries`) is the first whose fidelity evaluation meets the
tolerance, it transitions `TUNE_SUCCESS` and acks `ok` with that value; if
every evaluation during the retry loop fails but the single re-evaluation
after exhausting the retries meets the tolerance, it transitions
`TUNE_SUCCESS` and acks `warning`; if that final evaluation also fails, it
transitions `TUNE_FAIL` and acks `error`. -/
theorem executor_qtol_policy (hw : HWManClientModel) (m : QPUAbstraction)
    (task_id : String) (params : List Int) :
    (parse_tolerance [] = 98 / 100 ∧ parse_max_retries [] = 3 ∧
      (∀ (x : Int) (rest : List Int), parse_tolerance (x :: rest) = (x : ℚ)) ∧
      (∀ (x y : Int) (rest : List Int), parse_max_retries (x :: y :: rest) = y)) ∧
    (∀ k, k < (parse_max_retries params).toNat →
      (∀ i, i < k → hw.evaluate_fidelity i < parse_tolerance params) →
      parse_tolerance params ≤ hw.evaluate_fidelity k →
      execute_control hw m task_id "qtol" params =
        (m.transitionE .TUNE_SUCCESS).map fun m2 =>
          (m2, ⟨task_id, "ok",
                .fidelityMeets (hw.evaluate_fidelity k) (parse_tolerance params)⟩)) ∧
    ((∀ i, i < (parse_max_retries params).toNat →
        hw.evaluate_fidelity i < parse_tolerance params) →
      parse_tolerance params ≤ hw.evaluate_fidelity (parse_max_retries params).toNat →
      execute_control hw m task_id "qtol" params =
        (m.transitionE .TUNE_SUCCESS).map fun m2 =>
          (m2, ⟨task_id, "warning",
                .fidelityMeetsAfterRetries
                  (hw.evaluate_fidelity (parse_max_retries params).toNat)⟩)) ∧
    ((∀ i, i ≤ (parse_max_retries params).toNat →
        hw.evaluate_fidelity i < parse_tolerance params) →
      execute_control hw m task_id "qtol" params =
        (m.transitionE .TUNE_FAIL).map fun m2 =>
          (m2, ⟨task_id, "error",
                .fidelityBelow (hw.evaluate_fidelity (parse_max_retries params).toNat)
                  (parse_tolerance params)⟩)) := by
  refine ⟨⟨rfl, rfl, fun x rest => rfl, fun x y rest => rfl⟩, ?_, ?_, ?_⟩
  · intro k hk hlt hge
    rw [execute_control_qtol,
        qtolLoop_hit_from_start hw.evaluate_fidelity (parse_tolerance params)
          _ k hk hlt hge]
  · intro hfail hfinal
    rw [execute_control_qtol,
        qtolLoop_exhausted hw.evaluate_fidelity (parse_tolerance params) _ 0
          (fun i hi => by simpa using hfail i hi)]
    rw [if_pos hfinal]
  · intro hfail
    rw [execute_control_qtol,
        qtolLoop_exhausted hw.evaluate_fidelity (parse_tolerance params) _ 0
          (fun i hi => by simpa using hfail i (le_of_lt hi))]
    rw [if_neg (not_le.mpr (hfail _ (le_refl _)))]

/-- Witness for C5: with defaults (tolerance 0.98, max-retries 3) and a
hardware model whose fidelity evaluation always returns 0.981, the first
check succeeds with status `ok` (here from `MISTUNED`, where
`TUNE_SUCCESS` is a valid transition). -/
theorem executor_qtol_policy_witness :
    parse_tolerance [] = 98 / 100 ∧ parse_max_retries [] = 3 ∧
    execute_control hwConst981 mMistuned "t5" "qtol" [] =
      .ok (⟨.TUNED, some (.MISTUNED, .TUNE_SUCCESS, .TUNED)⟩,
           ⟨"t5", "ok", .fidelityMeets (981 / 1000) (98 / 100)⟩) := by
  have h := executor_qtol_policy hwConst981 mMistuned "t5" []
  refine ⟨h.1.1, h.1.2.1, ?_⟩
  have h2 := h.2.1 0 (by norm_num [parse_max_retries])
    (fun i hi => absurd hi (Nat.not_lt_zero i))
    (by show (98 / 100 : ℚ) ≤ 981 / 1000; norm_num)
  rw [h2]
  rfl

/-! ## C6 — the retune command -/

/-- C6: the claim (and spec) say a successful hardware retune updates the
observables, transitions `Retune` and acks `ok`; but `QPUAbstraction` has no
`update_observables` method and `QPUEvent` has no `RETUNE` member, so the
success path raises `AttributeError` and never produces an ack.  The failure
path does behave as described: `TUNE_FAIL` transition and an `error` ack
carrying the failure message of the hardware. -/
theorem executor_retune_success_crash :
    hwConst981.retuneReply.status = HWManStatus.OK ∧
    execute_control hwConst981 mIdle "t6" "retune" [] =
      .error (.attributeError "update_observables") ∧
    (∀ e : QPUEvent, e.value ≠ "retune") ∧
    execute_control hwRetuneFail mResponsive "t6" "retune" [] =
      .ok (⟨.MISTUNED, some (.RESPONSIVE, .TUNE_FAIL, .MISTUNED)⟩,
           ⟨"t6", "error", .hwMessage (some "retune failed")⟩) :=
  ⟨rfl, rfl, by decide, rfl⟩

/-! ## C7 — unknown control commands -/

/-- C7: a control command other than `reset`, `retune`, `resetall`, `qtol`
yields a `ControlAck` with status `error` and performs no state-machine
transition: the machine returned is exactly the machine passed in. -/
theorem executor_unknown_control (hw : HWManClientModel) (m : QPUAbstraction)
    (task_id command : String) (params : List Int)
    (h1 : command ≠ "reset") (h2 : command ≠ "retune")
    (h3 : command ≠ "resetall") (h4 : command ≠ "qtol") :
    execute_control hw m task_id command params =
      .ok (m, ⟨task_id, "error", .unknownControl command⟩) := by
  unfold execute_control
  rw [if_neg h1, if_neg h2, if_neg h3, if_neg h4]

/-- Witness for C7 at the command `self_destruct` (from the executor test
suite). -/
theorem executor_unknown_control_witness :
    execute_control hwConst981 mIdle "t7" "self_destruct" [] =
      .ok (mIdle, ⟨"t7", "error", .unknownControl "self_destruct"⟩) :=
  executor_unknown_control hwConst981 mIdle "t7" "self_destruct" []
    (by decide) (by decide) (by decide) (by decide)

/-! ## C9 — deferral and the drain loop -/

/-- Draining an empty queue is a no-op regardless of remaining fuel. -/
theorem drainDeferred_empty (hw : HWManClientModel) (fuel : Nat)
    (s : QPUExecutor) (h : s.queue.queue = []) :
    drainDeferred hw fuel s = .ok (s, []) := by
  cases fuel with
  | zero => rfl
  | succ n =>
    unfold drainDeferred
    have hd : s.queue.dequeue = (none, s.queue) := by
      apply dequeue_eq_none
      rw [h]
      rfl
    by_cases hs : s.qpu.state = .IDLE
    · rw [if_pos hs, hd]
    · rw [if_neg hs]

/-- C9: submitting any task while the resource state is not `Idle` enqueues
it and returns no result; and once the state is back to `Idle`, running the
deferred-drain loop on a queue holding that (circuit-task) entry executes
it — transitioning through `Busy` and back to `Idle` — and its result is the
drain trace, leaving the queue empty. -/
theorem executor_deferred_submit_and_drain
    (hw : HWManClientModel) (fuel : Nat) (s : QPUExecutor) (t : Task)
    (user : String) (cid : Option String) (prio : Int) (now : Nat)
    (hbusy : s.qpu.state ≠ .IDLE)
    (a : Option AuditRecord) (locks : String → Bool) (e : QueueEntry)
    (gates : List Gate) (shots : Nat) (hbody : e.task.body = .circuit gates shots) :
    (QPUExecutor.execute hw fuel s t user cid prio now =
      .ok (⟨s.qpu, (s.queue.enqueue t user cid prio now).1⟩, none)) ∧
    (drainDeferred hw (fuel + 1) ⟨⟨.IDLE, a⟩, ⟨[e], locks⟩⟩ =
      .ok (⟨⟨.IDLE, some (.BUSY, .TASK_FINISHED, .IDLE)⟩, ⟨[], locks⟩⟩,
           [.circuitResult e.task.task_id (hw.run_circuit gates shots)])) := by
  constructor
  · unfold QPUExecutor.execute
    rw [if_pos hbusy]
  · obtain ⟨etid, etask, ets, euser, ecid, eprio⟩ := e
    obtain ⟨ttid, tuser, tec, tbody⟩ := etask
    have hb2 : tbody = TaskBody.circuit gates shots := hbody
    subst hb2
    have hempty1 : drainDeferred hw fuel
        (⟨⟨.IDLE, some (.BUSY, .TASK_FINISHED, .IDLE)⟩, ⟨[], locks⟩⟩ : QPUExecutor) =
        .ok (⟨⟨.IDLE, some (.BUSY, .TASK_FINISHED, .IDLE)⟩, ⟨[], locks⟩⟩, []) :=
      drainDeferred_empty hw fuel _ rfl
    show Bind.bind (drainDeferred hw fuel
        (⟨⟨.IDLE, some (.BUSY, .TASK_FINISHED, .IDLE)⟩, ⟨[], locks⟩⟩ : QPUExecutor))
      (fun p2 => Bind.bind (drainDeferred hw fuel p2.1)
        (fun p3 => Except.ok (p3.1,
          TaskResult.circuitResult ttid (hw.run_circuit gates shots) :: (p2.2 ++ p3.2)))) =
      Except.ok (⟨⟨.IDLE, some (.BUSY, .TASK_FINISHED, .IDLE)⟩, ⟨[], locks⟩⟩,
        [TaskResult.circuitResult ttid (hw.run_circuit gates shots)])
    rw [hempty1]
    show Bind.bind (drainDeferred hw fuel
        (⟨⟨.IDLE, some (.BUSY, .TASK_FINISHED, .IDLE)⟩, ⟨[], locks⟩⟩ : QPUExecutor))
      (fun p3 => Except.ok (p3.1,
        TaskResult.circuitResult ttid (hw.run_circuit gates shots) :: ([] ++ p3.2))) =
      Except.ok (⟨⟨.IDLE, some (.BUSY, .TASK_FINISHED, .IDLE)⟩, ⟨[], locks⟩⟩,
        [TaskResult.circuitResult ttid (hw.run_circuit gates shots)])
    rw [hempty1]
    rfl

/-- Fixtures for the C9 witness. -/
def taskC9 : Task :=
  { task_id := "t9", user := "u", body := .circuit [] 100 }

def entryC9 : QueueEntry :=
  { task_id := "t9", task := taskC9, timestamp := 0, user := "u" }

/-- Witness for C9: submitting while `BUSY` defers (returns `none`); the
drain loop then executes the queued circuit task once the state is `IDLE`. -/
theorem executor_deferred_submit_and_drain_witness :
    (QPUExecutor.execute hwConst981 0 ⟨⟨.BUSY, none⟩, QPUTaskQueue.init⟩
        taskC9 "u" none 0 0 =
      .ok (⟨⟨.BUSY, none⟩,
            (QPUTaskQueue.init.enqueue taskC9 "u" none 0 0).1⟩, none)) ∧
    (drainDeferred hwConst981 1 ⟨⟨.IDLE, none⟩, ⟨[entryC9], fun _ => false⟩⟩ =
      .ok (⟨⟨.IDLE, some (.BUSY, .TASK_FINISHED, .IDLE)⟩, ⟨[], fun _ => false⟩⟩,
           [.circuitResult "t9" (hwConst981.run_circuit [] 100)])) :=
  executor_deferred_submit_and_drain hwConst981 0
    ⟨⟨.BUSY, none⟩, QPUTaskQueue.init⟩ taskC9 "u" none 0 0 (by decide)
    none (fun _ => false) entryC9 [] 100 rfl

end LCCFQBackend
